import Mathlib

/-!
Shallow embedding of the orchestration runner (`main.py`): repetition
parsing, script validation, the sequential attempt loop with randomized
delays, the delay generator, and the orchestrator's result-collection loop.
Filesystem facts, random draws and child-process exit statuses are supplied
by an explicit environment; observable effects (log entries, delay draws,
sleeps, process spawns) are returned as a trace.
-/

/-- Log severity levels used by the script runner's logger. -/
inductive Level
  | info
  | warning
  | error
deriving DecidableEq, Repr

/-- One log record: a severity level and a message string. -/
structure LogEntry where
  level : Level
  msg : String
deriving DecidableEq, Repr

/-- The filesystem facts consulted by `validate_script`: `os.path.exists`,
`os.path.isfile` and `os.access(path, os.R_OK)`. -/
structure FS where
  pathExists : String → Bool
  isFile : String → Bool
  readAccess : String → Bool

/-- Model of `os.path.basename`: the part of the path after the last `/`. -/
def basename (path : String) : String :=
  String.mk ((path.data.reverse.takeWhile (fun c => c != '/')).reverse)

/-- Value of a list of decimal digit characters, most significant first,
as computed by `int()` on the matched digit group. -/
def digitsVal (ds : List Char) : Nat :=
  ds.foldl (fun a c => 10 * a + (c.toNat - 48)) 0

/-- Model of the search for the pattern hyphen, digit group, ".py", anchored
at the end of the filename (line 64 of `main.py`): `some n` when the filename
ends in a hyphen, one or more digits and `.py`, where `n` is the value of the
final digit group; `none` otherwise. The reversed filename with its first
three characters (the reversed ".py" suffix) removed is the reversed stem
examined by the anchored search. -/
def pyStem (filename : String) : List Char :=
  filename.data.reverse.drop 3

/-- The search succeeds when the filename ends in ".py" and the stem's
maximal trailing digit run is nonempty and immediately preceded by a
hyphen; the digit run is the matched group. -/
def matchRepetition (filename : String) : Option Nat :=
  if filename.data.reverse.take 3 = ['y', 'p', '.'] then
    if (pyStem filename).takeWhile Char.isDigit ≠ [] ∧
        ((pyStem filename).drop ((pyStem filename).takeWhile Char.isDigit).length).head? =
          some '-' then
      some (digitsVal ((pyStem filename).takeWhile Char.isDigit).reverse)
    else
      none
  else
    none

/-- `parse_repetitions`: extract the repetition count from the script
filename, logging at info level on a match; on no match, log at warning
level and default to 1. Returns the count and the emitted log entries. -/
def parse_repetitions (script_path : String) : Nat × List LogEntry :=
  let filename := basename script_path
  match matchRepetition filename with
  | some repetitions =>
    (repetitions,
      [⟨Level.info, s!"Script {filename} will be repeated {repetitions} times"⟩])
  | none =>
    (1,
      [⟨Level.warning, s!"No repetition number found for {filename}. Defaulting to 1."⟩])

/-- `validate_script`: check existence, regular-file status and read access
in order, short-circuiting on the first failure with an error log entry.
Returns the boolean verdict and the emitted log entries. -/
def validate_script (fs : FS) (script_path : String) : Bool × List LogEntry :=
  if !(fs.pathExists script_path) then
    (false, [⟨Level.error, s!"Script does not exist: {script_path}"⟩])
  else if !(fs.isFile script_path) then
    (false, [⟨Level.error, s!"Not a file: {script_path}"⟩])
  else if !(fs.readAccess script_path) then
    (false, [⟨Level.error, s!"Script is not readable: {script_path}"⟩])
  else
    (true, [])

/-- `get_random_delay`: `random.uniform(min_delay, max_delay)`, modelled as
`min_delay + (max_delay - min_delay) * r` where `r` is the draw from the
process-wide random source, a rational in `[0, 1]`. -/
def get_random_delay (min_delay max_delay r : ℚ) : ℚ :=
  min_delay + (max_delay - min_delay) * r

/-- Observable effects of one `run_script` call. -/
inductive Event
  | log (entry : LogEntry)
  | drawDelay (d : ℚ)
  | sleep (d : ℚ)
  | spawn (attempt : Nat)
deriving DecidableEq

/-- The ambient world of one worker: the filesystem, the successive draws of
the process-wide random source (one per attempt, each in `[0, 1]`), and the
exit status the child process spawned on each 0-based attempt would return. -/
structure Env where
  fs : FS
  rand : Nat → ℚ
  procExit : Nat → Nat

/-- The attempt loop of `run_script` (`for attempt in range(max_repetitions)`):
draw a delay, log the attempt, sleep, spawn the child process; stop returning
`false` on the first non-zero exit status. The two explicit arguments are the
current 0-based attempt index and the number of remaining iterations. -/
def run_attempts (env : Env) (script_path : String) (max_repetitions : Nat) :
    Nat → Nat → Bool × List Event
  | _, 0 => (true, [])
  | attempt, rem + 1 =>
    let delay := get_random_delay 3 10 (env.rand attempt)
    let a1 := attempt + 1
    let pre : List Event :=
      [Event.drawDelay delay,
       Event.log ⟨Level.info, s!"Attempt {a1}/{max_repetitions} for {script_path}"⟩,
       Event.sleep delay,
       Event.spawn attempt]
    if env.procExit attempt = 0 then
      let next := run_attempts env script_path max_repetitions (attempt + 1) rem
      (next.1,
       pre ++ Event.log ⟨Level.info, s!"Successfully completed {script_path} (Attempt {a1})"⟩ :: next.2)
    else
      (false,
       pre ++ [Event.log ⟨Level.error, s!"Error executing {script_path} (Attempt {a1}/{max_repetitions}):"⟩])

/-- `run_script`: validate the path, parse the repetition count, then run the
attempt loop; returns the boolean result together with the trace of
observable effects. -/
def run_script (env : Env) (script_path : String) : Bool × List Event :=
  let v := validate_script env.fs script_path
  if !v.1 then
    (false, v.2.map Event.log)
  else
    let p := parse_repetitions script_path
    let l := run_attempts env script_path p.1 0 p.1
    (l.1, v.2.map Event.log ++ p.2.map Event.log ++ l.2)

/-- Whether an event is a child-process spawn. -/
def isSpawnEv : Event → Bool
  | Event.spawn _ => true
  | _ => false

/-- Whether an event is a sleep. -/
def isSleepEv : Event → Bool
  | Event.sleep _ => true
  | _ => false

/-- Whether an event is a draw from the random source. -/
def isDrawEv : Event → Bool
  | Event.drawDelay _ => true
  | _ => false

/-- Number of child processes spawned in a trace. -/
def spawnCount (evs : List Event) : Nat :=
  (evs.filter isSpawnEv).length

/-- Number of sleeps in a trace. -/
def sleepCount (evs : List Event) : Nat :=
  (evs.filter isSleepEv).length

/-- Number of delay draws in a trace. -/
def delayDrawCount (evs : List Event) : Nat :=
  (evs.filter isDrawEv).length

/-- The fixed script list of `main`. -/
def scripts : List String :=
  ["Automation-Survey/Automation/BSME-2-M-105.py",
   "Automation-Survey/Automation/BSA-3-M-20.py",
   "Automation-Survey/Automation/BSED-2-F-20.py",
   "Automation-Survey/Automation/BSED-3-M-5.py",
   "Automation-Survey/Automation/BSED-3-F-40.py"]

/-- Is a completed outcome a success, that is, did `future.result()` return
`True`? -/
def isOkTrue (x : String × Except String Bool) : Bool :=
  match x.2 with
  | Except.ok true => true
  | _ => false

/-- The result-collection loop of `main` over the futures in completion
order: `future.result()` either yields the runner's boolean (`Except.ok`) or
raises (`Except.error`); successes and failures are recorded in order, and an
exception is logged at error level with the script named, the script being
recorded as failed. Returns `(successful_scripts, failed_scripts, logs)`. -/
def collectResults : List (String × Except String Bool) →
    List String × List String × List LogEntry
  | [] => ([], [], [])
  | (script, r) :: rest =>
    let acc := collectResults rest
    match r with
    | Except.ok true => (script :: acc.1, acc.2.1, acc.2.2)
    | Except.ok false => (acc.1, script :: acc.2.1, acc.2.2)
    | Except.error e =>
      (acc.1, script :: acc.2.1,
       LogEntry.mk Level.error s!"Unexpected error with {script}: {e}" :: acc.2.2)

/-- A filesystem on which every path exists as a readable regular file. -/
def fsAll : FS := ⟨fun _ => true, fun _ => true, fun _ => true⟩

/-- A filesystem on which no path exists. -/
def fsNone : FS := ⟨fun _ => false, fun _ => false, fun _ => false⟩

/-- An environment in which every attempt's child process exits with 0. -/
def envOk : Env := ⟨fsAll, fun _ => 0, fun _ => 0⟩

/-- An environment in which the first attempt succeeds and every later
attempt fails. -/
def envFailSecond : Env := ⟨fsAll, fun _ => 0, fun k => if k = 0 then 0 else 1⟩

/-- An environment over a filesystem with no files. -/
def envMissing : Env := ⟨fsNone, fun _ => 0, fun _ => 0⟩

/-- An example completion-order outcome list for the five scripts of `main`:
one unit (an invalid path) failed, the rest succeeded; the order differs
from the submission order. -/
def outcomesEx : List (String × Except String Bool) :=
  [("Automation-Survey/Automation/BSED-3-F-40.py", Except.ok true),
   ("Automation-Survey/Automation/BSA-3-M-20.py", Except.ok false),
   ("Automation-Survey/Automation/BSME-2-M-105.py", Except.ok true),
   ("Automation-Survey/Automation/BSED-2-F-20.py", Except.ok true),
   ("Automation-Survey/Automation/BSED-3-M-5.py", Except.ok true)]

example : matchRepetition "BSED-3-F-40.py" = some 40 := by decide
example : matchRepetition "plain.py" = none := by decide
example : matchRepetition "a-0.py" = some 0 := by decide
example : (parse_repetitions "Automation/BSED-3-F-40.py").1 = 40 := by decide
example : (run_script envOk "a-2.py").1 = true := by decide
example : (run_script envFailSecond "a-3.py").1 = false := by decide
example : spawnCount (run_script envFailSecond "a-3.py").2 = 2 := by decide
example : (run_script envMissing "a-3.py").1 = false := by decide
example : (run_script envOk "a-0.py").1 = true := by decide
example : spawnCount (run_script envOk "a-0.py").2 = 0 := by decide

theorem spawnCount_append (a b : List Event) :
    spawnCount (a ++ b) = spawnCount a + spawnCount b := by
  simp [spawnCount, List.filter_append]

theorem sleepCount_append (a b : List Event) :
    sleepCount (a ++ b) = sleepCount a + sleepCount b := by
  simp [sleepCount, List.filter_append]

theorem delayDrawCount_append (a b : List Event) :
    delayDrawCount (a ++ b) = delayDrawCount a + delayDrawCount b := by
  simp [delayDrawCount, List.filter_append]

theorem spawnCount_map_log (ls : List LogEntry) :
    spawnCount (ls.map Event.log) = 0 := by
  simp [spawnCount, List.filter_map, isSpawnEv]

theorem sleepCount_map_log (ls : List LogEntry) :
    sleepCount (ls.map Event.log) = 0 := by
  simp [sleepCount, List.filter_map, isSleepEv]

theorem delayDrawCount_map_log (ls : List LogEntry) :
    delayDrawCount (ls.map Event.log) = 0 := by
  simp [delayDrawCount, List.filter_map, isDrawEv]

theorem run_attempts_true_iff (env : Env) (p : String) (n : Nat) :
    ∀ rem start, (run_attempts env p n start rem).1 = true ↔
      ∀ k, k < rem → env.procExit (start + k) = 0 := by
  intro rem
  induction rem with
  | zero =>
    intro start
    simp [run_attempts]
  | succ m ih =>
    intro start
    by_cases h : env.procExit start = 0
    · simp only [run_attempts, h, if_pos]
      rw [ih (start + 1)]
      constructor
      · intro hall k hk
        cases k with
        | zero => simpa using h
        | succ j =>
          have hj := hall j (by omega)
          rwa [show start + 1 + j = start + (j + 1) by omega] at hj
      · intro hall j hj
        have := hall (j + 1) (by omega)
        rwa [show start + (j + 1) = start + 1 + j by omega] at this
    · simp only [run_attempts, h, if_neg, if_false]
      constructor
      · intro hfalse
        exact absurd hfalse (by simp)
      · intro hall
        exact absurd (by simpa using hall 0 (by omega)) h

theorem run_attempts_spawnCount_le (env : Env) (p : String) (n : Nat) :
    ∀ rem start, spawnCount (run_attempts env p n start rem).2 ≤ rem := by
  intro rem
  induction rem with
  | zero =>
    intro start
    simp [run_attempts, spawnCount]
  | succ m ih =>
    intro start
    by_cases h : env.procExit start = 0
    · simp only [run_attempts, h, if_pos]
      rw [spawnCount_append]
      have hi := ih (start + 1)
      simp [spawnCount, List.filter_cons, isSpawnEv] at hi ⊢
      omega
    · simp only [run_attempts, h, if_neg, if_false]
      simp [spawnCount, List.filter_cons, isSpawnEv]

theorem run_attempts_all_ok (env : Env) (p : String) (n : Nat) :
    ∀ rem start, (∀ j, j < rem → env.procExit (start + j) = 0) →
      spawnCount (run_attempts env p n start rem).2 = rem := by
  intro rem
  induction rem with
  | zero =>
    intro start _
    simp [run_attempts, spawnCount]
  | succ m ih =>
    intro start hall
    have h0 : env.procExit start = 0 := by simpa using hall 0 (by omega)
    simp only [run_attempts, h0, if_pos]
    rw [spawnCount_append]
    have hi := ih (start + 1) (fun j hj => by
      have := hall (j + 1) (by omega)
      rwa [show start + (j + 1) = start + 1 + j by omega] at this)
    simp [spawnCount, List.filter_cons, isSpawnEv] at hi ⊢
    omega

theorem run_attempts_first_fail (env : Env) (p : String) (n : Nat) :
    ∀ rem start k, k < rem → (∀ j, j < k → env.procExit (start + j) = 0) →
      env.procExit (start + k) ≠ 0 →
      (run_attempts env p n start rem).1 = false ∧
      spawnCount (run_attempts env p n start rem).2 = k + 1 := by
  intro rem
  induction rem with
  | zero =>
    intro start k hk
    omega
  | succ m ih =>
    intro start k hk hpre hfail
    cases k with
    | zero =>
      have h0 : env.procExit start ≠ 0 := by simpa using hfail
      simp only [run_attempts, if_neg h0]
      refine ⟨by simp, ?_⟩
      simp [spawnCount, List.filter_cons, isSpawnEv]
    | succ j =>
      have h0 : env.procExit start = 0 := by simpa using hpre 0 (by omega)
      have hrec := ih (start + 1) j (by omega)
        (fun i hi => by
          have := hpre (i + 1) (by omega)
          rwa [show start + (i + 1) = start + 1 + i by omega] at this)
        (by rwa [show start + 1 + j = start + (j + 1) by omega])
      simp only [run_attempts, h0, if_pos]
      refine ⟨hrec.1, ?_⟩
      rw [spawnCount_append]
      have h2 := hrec.2
      simp [spawnCount, List.filter_cons, isSpawnEv] at h2 ⊢
      omega

theorem validate_logs_nil (fs : FS) (p : String)
    (hv : (validate_script fs p).1 = true) : (validate_script fs p).2 = [] := by
  unfold validate_script at hv ⊢
  split_ifs at hv ⊢
  simp_all

theorem run_script_valid (env : Env) (p : String)
    (hv : (validate_script env.fs p).1 = true) :
    run_script env p =
      ((run_attempts env p (parse_repetitions p).1 0 (parse_repetitions p).1).1,
       (parse_repetitions p).2.map Event.log ++
         (run_attempts env p (parse_repetitions p).1 0 (parse_repetitions p).1).2) := by
  unfold run_script
  simp [hv, validate_logs_nil env.fs p hv]

theorem run_script_invalid (env : Env) (p : String)
    (hv : (validate_script env.fs p).1 = false) :
    run_script env p = (false, (validate_script env.fs p).2.map Event.log) := by
  unfold run_script
  simp [hv]

/-- C1: run_script returns true iff the path passes validation and every
attempt, from the first up to the parsed repeat count, exits with status
zero; it returns false whenever validation fails or some attempt's child
process exits non-zero. -/
theorem run_script_true_iff_all_attempts_ok (env : Env) (p : String) :
    (run_script env p).1 = true ↔
      ((validate_script env.fs p).1 = true ∧
        ∀ k, k < (parse_repetitions p).1 → env.procExit k = 0) := by
  by_cases hv : (validate_script env.fs p).1 = true
  · rw [run_script_valid env p hv]
    have h := run_attempts_true_iff env p (parse_repetitions p).1 (parse_repetitions p).1 0
    simp only [Nat.zero_add] at h
    simp [hv, h]
  · have hv' : (validate_script env.fs p).1 = false := by
      cases h : (validate_script env.fs p).1
      · rfl
      · exact absurd h hv
    rw [run_script_invalid env p hv']
    simp [hv']

/-- Witness for C1 at a concrete environment and path. -/
theorem run_script_true_iff_all_attempts_ok_witness :
    (run_script envOk "a-2.py").1 = true :=
  (run_script_true_iff_all_attempts_ok envOk "a-2.py").mpr ⟨by decide, fun k _ => rfl⟩

/-- C3: for a unit that passes validation, the number of attempts (child
processes spawned) never exceeds the parsed repeat count; the result is
failure iff at least one of the attempts actually made failed; and if the
underlying process first fails on 0-based attempt k, exactly k + 1 attempts
are made and failure is returned. -/
theorem run_script_attempt_invariants (env : Env) (p : String)
    (hv : (validate_script env.fs p).1 = true) :
    spawnCount (run_script env p).2 ≤ (parse_repetitions p).1 ∧
    ((run_script env p).1 = false ↔
      ∃ k, k < spawnCount (run_script env p).2 ∧ env.procExit k ≠ 0) ∧
    (∀ k, k < (parse_repetitions p).1 → (∀ j, j < k → env.procExit j = 0) →
      env.procExit k ≠ 0 →
      spawnCount (run_script env p).2 = k + 1 ∧ (run_script env p).1 = false) := by
  classical
  have hrw := run_script_valid env p hv
  set n := (parse_repetitions p).1 with hn
  have hcount : spawnCount (run_script env p).2 =
      spawnCount (run_attempts env p n 0 n).2 := by
    rw [hrw, spawnCount_append, spawnCount_map_log]
    omega
  have hres : (run_script env p).1 = (run_attempts env p n 0 n).1 := by
    rw [hrw]
  refine ⟨?_, ⟨?_, ?_⟩, ?_⟩
  · rw [hcount]
    exact run_attempts_spawnCount_le env p n n 0
  · intro hfalse
    rw [hres] at hfalse
    have hex : ∃ k, k < n ∧ env.procExit k ≠ 0 := by
      by_contra hno
      push_neg at hno
      have htrue := (run_attempts_true_iff env p n n 0).mpr
        (fun k hk => by simpa using hno k hk)
      rw [hfalse] at htrue
      simp at htrue
    obtain ⟨kw, hkw, hkfail⟩ := hex
    have hexP : ∃ k, env.procExit k ≠ 0 := ⟨kw, hkfail⟩
    have hk0fail : env.procExit (Nat.find hexP) ≠ 0 := Nat.find_spec hexP
    have hk0min : ∀ j, j < Nat.find hexP → env.procExit j = 0 := by
      intro j hj
      by_contra hne
      exact Nat.find_min hexP hj hne
    have hk0le : Nat.find hexP ≤ kw := Nat.find_min' hexP hkfail
    have hff := run_attempts_first_fail env p n n 0 (Nat.find hexP) (by omega)
      (fun j hj => by simpa using hk0min j hj) (by simpa using hk0fail)
    exact ⟨Nat.find hexP, by rw [hcount, hff.2]; omega, hk0fail⟩
  · rintro ⟨k, hk, hkf⟩
    by_contra hresne
    have htrue : (run_script env p).1 = true := by
      cases h : (run_script env p).1
      · exact absurd h hresne
      · rfl
    rw [hres] at htrue
    have hall := (run_attempts_true_iff env p n n 0).mp htrue
    have hcnt : spawnCount (run_script env p).2 = n := by
      rw [hcount]
      exact run_attempts_all_ok env p n n 0 hall
    have := hall k (by omega)
    simp only [Nat.zero_add] at this
    exact hkf this
  · intro k hk hpre hfail
    have hff := run_attempts_first_fail env p n n 0 k hk
      (fun j hj => by simpa using hpre j hj) (by simpa using hfail)
    refine ⟨by rw [hcount]; exact hff.2, by rw [hres]; exact hff.1⟩

/-- Witness for C3: repeat count 3, the process fails on the second attempt;
exactly 2 attempts are made and failure is returned. -/
theorem run_script_attempt_invariants_witness :
    spawnCount (run_script envFailSecond "a-3.py").2 = 2 ∧
    (run_script envFailSecond "a-3.py").1 = false :=
  (run_script_attempt_invariants envFailSecond "a-3.py" (by decide)).2.2 1 (by decide)
    (by decide) (by decide)

/-- C5: for every path that fails validation, run_script returns false
immediately: no attempt is made (no child process spawned), no delay is
drawn and none is slept. -/
theorem run_script_invalid_no_effects (env : Env) (p : String)
    (hv : (validate_script env.fs p).1 = false) :
    (run_script env p).1 = false ∧
    spawnCount (run_script env p).2 = 0 ∧
    sleepCount (run_script env p).2 = 0 ∧
    delayDrawCount (run_script env p).2 = 0 := by
  rw [run_script_invalid env p hv]
  exact ⟨rfl, spawnCount_map_log _, sleepCount_map_log _, delayDrawCount_map_log _⟩

/-- Witness for C5 at a nonexistent path. -/
theorem run_script_invalid_no_effects_witness :
    (run_script envMissing "gone.py").1 = false ∧
    spawnCount (run_script envMissing "gone.py").2 = 0 ∧
    sleepCount (run_script envMissing "gone.py").2 = 0 ∧
    delayDrawCount (run_script envMissing "gone.py").2 = 0 :=
  run_script_invalid_no_effects envMissing "gone.py" (by decide)

/-- C4: validate_script returns true iff the path exists, is a regular file
and is readable; the three checks are made in that order, short-circuiting
with a single distinct error-level log entry on the first failing check. -/
theorem validate_script_spec (fs : FS) (p : String) :
    ((validate_script fs p).1 = true ↔
      fs.pathExists p = true ∧ fs.isFile p = true ∧ fs.readAccess p = true) ∧
    (fs.pathExists p = false →
      (validate_script fs p).2 = [⟨Level.error, s!"Script does not exist: {p}"⟩]) ∧
    (fs.pathExists p = true → fs.isFile p = false →
      (validate_script fs p).2 = [⟨Level.error, s!"Not a file: {p}"⟩]) ∧
    (fs.pathExists p = true → fs.isFile p = true → fs.readAccess p = false →
      (validate_script fs p).2 = [⟨Level.error, s!"Script is not readable: {p}"⟩]) ∧
    (s!"Script does not exist: {p}" ≠ s!"Not a file: {p}") ∧
    (s!"Script does not exist: {p}" ≠ s!"Script is not readable: {p}") ∧
    (s!"Not a file: {p}" ≠ s!"Script is not readable: {p}") := by
  refine ⟨?_, ?_, ?_, ?_, ?_, ?_, ?_⟩
  · unfold validate_script
    split_ifs <;> simp_all
  · intro h
    simp [validate_script, h]
  · intro h1 h2
    simp [validate_script, h1, h2]
  · intro h1 h2 h3
    simp [validate_script, h1, h2, h3]
  · intro h
    have hl := congrArg String.length h
    simp only [String.length_append] at hl
    have e1 : (toString "Script does not exist: ").length = 23 := by decide
    have e2 : (toString "Not a file: ").length = 12 := by decide
    omega
  · intro h
    have hl := congrArg String.length h
    simp only [String.length_append] at hl
    have e1 : (toString "Script does not exist: ").length = 23 := by decide
    have e2 : (toString "Script is not readable: ").length = 24 := by decide
    omega
  · intro h
    have hl := congrArg String.length h
    simp only [String.length_append] at hl
    have e1 : (toString "Not a file: ").length = 12 := by decide
    have e2 : (toString "Script is not readable: ").length = 24 := by decide
    omega

/-- Witness for C4: a nonexistent path fails validation with the existence
error logged. -/
theorem validate_script_spec_witness :
    (validate_script fsNone "d").2 = [⟨Level.error, "Script does not exist: d"⟩] ∧
    (validate_script fsNone "d").1 = false := by
  constructor
  · rw [(validate_script_spec fsNone "d").2.1 (by decide)]
    decide
  · cases hres : (validate_script fsNone "d").1
    · rfl
    · have := ((validate_script_spec fsNone "d").1.mp hres).1
      exact absurd this (by decide)

/-- C6: for min_delay ≤ max_delay and a draw r from the random source lying
in [0, 1], get_random_delay returns a value in the closed interval
[min_delay, max_delay]. -/
theorem get_random_delay_bounds (min_delay max_delay r : ℚ)
    (hle : min_delay ≤ max_delay) (h0 : 0 ≤ r) (h1 : r ≤ 1) :
    min_delay ≤ get_random_delay min_delay max_delay r ∧
    get_random_delay min_delay max_delay r ≤ max_delay := by
  unfold get_random_delay
  constructor
  · nlinarith
  · nlinarith

/-- Witness for C6 with the default bounds 3 and 10 and the draw 1/2. -/
theorem get_random_delay_bounds_witness :
    3 ≤ get_random_delay 3 10 (1 / 2) ∧ get_random_delay 3 10 (1 / 2) ≤ 10 :=
  get_random_delay_bounds 3 10 (1 / 2) (by norm_num) (by norm_num) (by norm_num)

theorem collectResults_succ_eq (outcomes : List (String × Except String Bool)) :
    (collectResults outcomes).1 = (outcomes.filter isOkTrue).map Prod.fst := by
  induction outcomes with
  | nil => rfl
  | cons x rest ih =>
    rcases x with ⟨s0, r0⟩
    cases r0 with
    | ok b =>
      cases b
      · simp [collectResults, isOkTrue, List.filter_cons, ih]
      · simp [collectResults, isOkTrue, List.filter_cons, ih]
    | error e0 =>
      simp [collectResults, isOkTrue, List.filter_cons, ih]

theorem collectResults_fail_eq (outcomes : List (String × Except String Bool)) :
    (collectResults outcomes).2.1 =
      (outcomes.filter (fun x => !(isOkTrue x))).map Prod.fst := by
  induction outcomes with
  | nil => rfl
  | cons x rest ih =>
    rcases x with ⟨s0, r0⟩
    cases r0 with
    | ok b =>
      cases b
      · simp [collectResults, isOkTrue, List.filter_cons, ih]
      · simp [collectResults, isOkTrue, List.filter_cons, ih]
    | error e0 =>
      simp [collectResults, isOkTrue, List.filter_cons, ih]

theorem collectResults_log_of_error (outcomes : List (String × Except String Bool))
    (script e) (h : (script, Except.error e) ∈ outcomes) :
    (⟨Level.error, s!"Unexpected error with {script}: {e}"⟩ : LogEntry) ∈
      (collectResults outcomes).2.2 := by
  induction outcomes with
  | nil => cases h
  | cons x rest ih =>
    rcases x with ⟨s0, r0⟩
    rcases List.mem_cons.mp h with heq | hmem
    · cases heq
      simp [collectResults]
    · cases r0 with
      | ok b =>
        cases b
        · simpa [collectResults] using ih hmem
        · simpa [collectResults] using ih hmem
      | error e0 =>
        simp [collectResults]
        right
        exact ih hmem

/-- C7: for every unit whose result retrieval raised, the orchestrator's
collection loop records the unit in the failed list and logs an error entry
naming it; the exception never aborts the loop, so every unit in the
completion list still lands in one of the two summary lists. -/
theorem collectResults_exception_handled (outcomes : List (String × Except String Bool))
    (script e : String) (h : (script, Except.error e) ∈ outcomes) :
    script ∈ (collectResults outcomes).2.1 ∧
    (⟨Level.error, s!"Unexpected error with {script}: {e}"⟩ : LogEntry) ∈
      (collectResults outcomes).2.2 ∧
    ∀ s r, (s, r) ∈ outcomes →
      s ∈ (collectResults outcomes).1 ∨ s ∈ (collectResults outcomes).2.1 := by
  refine ⟨?_, collectResults_log_of_error outcomes script e h, ?_⟩
  · rw [collectResults_fail_eq]
    exact List.mem_map.mpr ⟨(script, Except.error e),
      List.mem_filter.mpr ⟨h, by simp [isOkTrue]⟩, rfl⟩
  · intro s r hm
    by_cases hok : isOkTrue (s, r) = true
    · left
      rw [collectResults_succ_eq]
      exact List.mem_map.mpr ⟨(s, r), List.mem_filter.mpr ⟨hm, hok⟩, rfl⟩
    · right
      have hf : isOkTrue (s, r) = false := by
        cases hh : isOkTrue (s, r)
        · rfl
        · exact absurd hh hok
      rw [collectResults_fail_eq]
      exact List.mem_map.mpr ⟨(s, r), List.mem_filter.mpr ⟨hm, by simp [hf]⟩, rfl⟩

/-- Witness for C7 at a single outcome whose retrieval raised. -/
theorem collectResults_exception_handled_witness :
    "a.py" ∈ (collectResults [("a.py", Except.error "boom")]).2.1 ∧
    (collectResults [("a.py", Except.error "boom")]).2.2 ≠ [] := by
  have h := collectResults_exception_handled [("a.py", Except.error "boom")] "a.py" "boom"
    (List.mem_singleton.mpr rfl)
  refine ⟨h.1, ?_⟩
  intro hnil
  have h2 := h.2.1
  rw [hnil] at h2
  exact absurd h2 (List.not_mem_nil _)

/-- C8: the successful list is exactly the units whose runner returned true,
in completion order, the failed list exactly the others; a unit submitted
once lands in exactly one of the two lists; and completion orders that are
permutations of each other yield the same two lists up to permutation. -/
theorem collectResults_partition_spec (outcomes : List (String × Except String Bool)) :
    (collectResults outcomes).1 = (outcomes.filter isOkTrue).map Prod.fst ∧
    (collectResults outcomes).2.1 =
      (outcomes.filter (fun x => !(isOkTrue x))).map Prod.fst ∧
    (∀ s : String, (outcomes.map Prod.fst).count s = 1 →
      ((s ∈ (collectResults outcomes).1 ∧ s ∉ (collectResults outcomes).2.1) ∨
       (s ∉ (collectResults outcomes).1 ∧ s ∈ (collectResults outcomes).2.1))) ∧
    (∀ o2 : List (String × Except String Bool), outcomes.Perm o2 →
      (collectResults outcomes).1.Perm (collectResults o2).1 ∧
      (collectResults outcomes).2.1.Perm (collectResults o2).2.1) := by
  refine ⟨collectResults_succ_eq outcomes, collectResults_fail_eq outcomes, ?_, ?_⟩
  · intro s hcount
    have hperm : ((outcomes.filter isOkTrue) ++
        (outcomes.filter (fun x => !(isOkTrue x)))).Perm outcomes :=
      List.filter_append_perm isOkTrue outcomes
    have hcnt := (hperm.map Prod.fst).count_eq s
    rw [List.map_append, List.count_append, hcount] at hcnt
    rw [collectResults_succ_eq, collectResults_fail_eq]
    by_cases hs : s ∈ (outcomes.filter isOkTrue).map Prod.fst
    · left
      refine ⟨hs, ?_⟩
      intro hf
      have h1 := List.count_pos_iff.mpr hs
      have h2 := List.count_pos_iff.mpr hf
      omega
    · right
      refine ⟨hs, ?_⟩
      have h1 := List.count_eq_zero.mpr hs
      have h2 : 0 < ((outcomes.filter (fun x => !(isOkTrue x))).map Prod.fst).count s := by
        omega
      exact List.count_pos_iff.mp h2
  · intro o2 hp
    simp only [collectResults_succ_eq, collectResults_fail_eq]
    exact ⟨(hp.filter isOkTrue).map Prod.fst, (hp.filter _).map Prod.fst⟩

/-- Witness for C8: the five scripts of main in a completion order differing
from submission order, the invalid one failed; that unit lands in exactly
one list. -/
theorem collectResults_partition_spec_witness :
    ("Automation-Survey/Automation/BSA-3-M-20.py" ∈ (collectResults outcomesEx).1 ∧
      "Automation-Survey/Automation/BSA-3-M-20.py" ∉ (collectResults outcomesEx).2.1) ∨
    ("Automation-Survey/Automation/BSA-3-M-20.py" ∉ (collectResults outcomesEx).1 ∧
      "Automation-Survey/Automation/BSA-3-M-20.py" ∈ (collectResults outcomesEx).2.1) :=
  (collectResults_partition_spec outcomesEx).2.2.1 _ (by decide)

theorem takeWhile_append_not (p : Char → Bool) (a : List Char) (c : Char) (b : List Char)
    (ha : ∀ x ∈ a, p x = true) (hc : p c = false) :
    (a ++ c :: b).takeWhile p = a := by
  induction a with
  | nil => simp [List.takeWhile_cons, hc]
  | cons x xs ih =>
    have hx : p x = true := ha x (List.mem_cons_self x xs)
    rw [List.cons_append, List.takeWhile_cons_of_pos hx,
      ih (fun y hy => ha y (List.mem_cons_of_mem x hy))]

theorem drop_takeWhile_length (p : Char → Bool) :
    ∀ l : List Char, l.drop (l.takeWhile p).length = l.dropWhile p := by
  intro l
  induction l with
  | nil => rfl
  | cons x xs ih =>
    by_cases hx : p x = true
    · rw [List.takeWhile_cons_of_pos hx, List.dropWhile_cons_of_pos hx]
      simpa using ih
    · rw [List.takeWhile_cons_of_neg hx, List.dropWhile_cons_of_neg hx]
      rfl

theorem matchRepetition_of_decomp (f : String) (pre ds : List Char)
    (hne : ds ≠ []) (hdig : ∀ c ∈ ds, c.isDigit = true)
    (hf : f.data = pre ++ '-' :: (ds ++ ['.', 'p', 'y'])) :
    matchRepetition f = some (digitsVal ds) := by
  have hrev : f.data.reverse = 'y' :: 'p' :: '.' :: (ds.reverse ++ '-' :: pre.reverse) := by
    rw [hf]
    simp [List.reverse_append]
  have htw : (ds.reverse ++ '-' :: pre.reverse).takeWhile Char.isDigit = ds.reverse :=
    takeWhile_append_not Char.isDigit ds.reverse '-' pre.reverse
      (fun x hx => hdig x (List.mem_reverse.mp hx)) (by decide)
  have hdrop : (ds.reverse ++ '-' :: pre.reverse).drop ds.reverse.length =
      '-' :: pre.reverse := List.drop_left ds.reverse ('-' :: pre.reverse)
  have hne' : ds.reverse ≠ [] := by simpa using hne
  have h1 : f.data.reverse.take 3 = ['y', 'p', '.'] := by
    rw [hrev]
    rfl
  have hstem : pyStem f = ds.reverse ++ '-' :: pre.reverse := by
    unfold pyStem
    rw [hrev]
    rfl
  have hc1 : (pyStem f).takeWhile Char.isDigit = ds.reverse := by
    rw [hstem]
    exact htw
  have hc2 : ((pyStem f).drop ((pyStem f).takeWhile Char.isDigit).length).head? =
      some '-' := by
    rw [hc1, hstem, hdrop]
    rfl
  have hcond : (pyStem f).takeWhile Char.isDigit ≠ [] ∧
      ((pyStem f).drop ((pyStem f).takeWhile Char.isDigit).length).head? = some '-' :=
    ⟨by rw [hc1]; exact hne', hc2⟩
  unfold matchRepetition
  rw [if_pos h1, if_pos hcond, hc1, List.reverse_reverse]

theorem decomp_of_matchRepetition (f : String) (n : Nat)
    (h : matchRepetition f = some n) :
    ∃ pre ds : List Char, ds ≠ [] ∧ (∀ c ∈ ds, c.isDigit = true) ∧
      f.data = pre ++ '-' :: (ds ++ ['.', 'p', 'y']) ∧ n = digitsVal ds := by
  unfold matchRepetition at h
  split_ifs at h with h1 h2
  · injection h with hn
    obtain ⟨hne, hhead⟩ := h2
    rw [drop_takeWhile_length] at hhead
    cases hdw : (pyStem f).dropWhile Char.isDigit with
    | nil =>
      rw [hdw] at hhead
      cases hhead
    | cons c tl =>
      rw [hdw] at hhead
      have hc : c = '-' := by simpa using hhead
      subst hc
      set dsl := (pyStem f).takeWhile Char.isDigit with hdsl
      have hsplit : pyStem f = dsl ++ '-' :: tl := by
        rw [hdsl, ← hdw, List.takeWhile_append_dropWhile]
      have hfr : f.data.reverse = ['y', 'p', '.'] ++ pyStem f := by
        rw [show pyStem f = f.data.reverse.drop 3 from rfl, ← h1, List.take_append_drop]
      have hfd : f.data = tl.reverse ++ '-' :: (dsl.reverse ++ ['.', 'p', 'y']) := by
        have hrr := congrArg List.reverse hfr
        rw [List.reverse_reverse] at hrr
        rw [hrr, hsplit]
        simp [List.reverse_append]
      refine ⟨tl.reverse, dsl.reverse, by simpa using hne, ?_, hfd, hn.symm⟩
      intro c hcm
      have hmem := List.mem_reverse.mp hcm
      rw [hdsl] at hmem
      exact List.mem_takeWhile_imp hmem

/-- C2: for every path whose filename ends in a hyphen, one or more decimal
digits and ".py" (the final hyphen-number group, since the pattern is
anchored at the end), the parser returns exactly the number formed by those
digits; for every other filename it returns 1 and emits a single
warning-level log entry. -/
theorem parse_repetitions_spec :
    (∀ (p : String) (pre ds : List Char), ds ≠ [] → (∀ c ∈ ds, c.isDigit = true) →
      (basename p).data = pre ++ '-' :: (ds ++ ['.', 'p', 'y']) →
      (parse_repetitions p).1 = digitsVal ds) ∧
    (∀ p : String,
      (¬ ∃ pre ds : List Char, ds ≠ [] ∧ (∀ c ∈ ds, c.isDigit = true) ∧
        (basename p).data = pre ++ '-' :: (ds ++ ['.', 'p', 'y'])) →
      (parse_repetitions p).1 = 1 ∧
      ∃ m : String, (parse_repetitions p).2 = [⟨Level.warning, m⟩]) := by
  constructor
  · intro p pre ds hne hdig hname
    have hm := matchRepetition_of_decomp (basename p) pre ds hne hdig hname
    simp only [parse_repetitions]
    rw [hm]
  · intro p hno
    have hm : matchRepetition (basename p) = none := by
      cases hmr : matchRepetition (basename p) with
      | none => rfl
      | some n =>
        obtain ⟨pre, ds, h1, h2, h3, _⟩ := decomp_of_matchRepetition (basename p) n hmr
        exact absurd ⟨pre, ds, h1, h2, h3⟩ hno
    simp only [parse_repetitions]
    rw [hm]
    exact ⟨rfl, _, rfl⟩

/-- Witness for C2: BSED-3-F-40.py parses to 40; plain.py parses to 1 with
a warning-level log entry. -/
theorem parse_repetitions_spec_witness :
    (parse_repetitions "BSED-3-F-40.py").1 = 40 ∧
    ((parse_repetitions "plain.py").1 = 1 ∧
      ∃ m : String, (parse_repetitions "plain.py").2 = [⟨Level.warning, m⟩]) := by
  constructor
  · exact parse_repetitions_spec.1 "BSED-3-F-40.py" "BSED-3-F".data ['4', '0']
      (by decide) (by decide) (by decide)
  · refine parse_repetitions_spec.2 "plain.py" ?_
    intro hex
    obtain ⟨pre, ds, h1, h2, h3⟩ := hex
    have hsome := matchRepetition_of_decomp (basename "plain.py") pre ds h1 h2 h3
    rw [show matchRepetition (basename "plain.py") = none from by decide] at hsome
    exact Option.noConfusion hsome

/-- C9 as stated is false at the concrete input "A-0.py": the parser
returns 0 there, not a positive integer. -/
theorem parse_repetitions_positive_counterexample :
    ¬ ∀ p : String, 1 ≤ (parse_repetitions p).1 := by
  intro h
  have h1 := h "A-0.py"
  have h0 : (parse_repetitions "A-0.py").1 = 0 := by decide
  omega

/-- C9 amended: the parser always returns a natural number, positive unless
the matched final digit group denotes zero, in which case it returns 0. -/
theorem parse_repetitions_pos_unless_zero_match (p : String) :
    1 ≤ (parse_repetitions p).1 ∨
    ((parse_repetitions p).1 = 0 ∧ matchRepetition (basename p) = some 0) := by
  have hp : (parse_repetitions p).1 = (matchRepetition (basename p)).getD 1 := by
    simp only [parse_repetitions]
    cases matchRepetition (basename p) with
    | none => rfl
    | some n => rfl
  cases hm : matchRepetition (basename p) with
  | none =>
    left
    rw [hp, hm]
    exact Nat.le_refl 1
  | some n =>
    rcases Nat.eq_zero_or_pos n with h0 | hpos
    · right
      subst h0
      exact ⟨by rw [hp, hm]; rfl, rfl⟩
    · left
      rw [hp, hm]
      exact hpos

/-- C10: a valid path whose filename ends in "-0.py" makes run_script return
true with zero attempts: no delay drawn, no sleep, no child process spawned. -/
theorem run_script_zero_repetitions (env : Env) (p : String) (pre : List Char)
    (hv : (validate_script env.fs p).1 = true)
    (hname : (basename p).data = pre ++ '-' :: (['0'] ++ ['.', 'p', 'y'])) :
    (run_script env p).1 = true ∧
    spawnCount (run_script env p).2 = 0 ∧
    sleepCount (run_script env p).2 = 0 ∧
    delayDrawCount (run_script env p).2 = 0 := by
  have hm : matchRepetition (basename p) = some 0 :=
    matchRepetition_of_decomp (basename p) pre ['0'] (by simp) (by decide) hname
  have hreps : (parse_repetitions p).1 = 0 := by
    simp only [parse_repetitions]
    rw [hm]
  have hrw := run_script_valid env p hv
  rw [hreps] at hrw
  rw [show run_attempts env p 0 0 0 = ((true : Bool), ([] : List Event)) from rfl] at hrw
  rw [hrw]
  refine ⟨rfl, ?_, ?_, ?_⟩
  · simp [spawnCount_append, spawnCount_map_log, spawnCount, isSpawnEv]
  · simp [sleepCount_append, sleepCount_map_log, sleepCount, isSleepEv]
  · simp [delayDrawCount_append, delayDrawCount_map_log, delayDrawCount, isDrawEv]

/-- Witness for C10 at the path "x-0.py" on a filesystem where it is a
readable regular file. -/
theorem run_script_zero_repetitions_witness :
    (run_script envOk "x-0.py").1 = true ∧
    spawnCount (run_script envOk "x-0.py").2 = 0 ∧
    sleepCount (run_script envOk "x-0.py").2 = 0 ∧
    delayDrawCount (run_script envOk "x-0.py").2 = 0 :=
  run_script_zero_repetitions envOk "x-0.py" ['x'] (by decide) (by decide)

/-- C3 as stated over every unit is false at a concrete invalid path: the
result is failure although zero attempts were made, so no attempt failed. -/
theorem run_script_attempt_invariants_counterexample :
    ¬ ((run_script envMissing "a-3.py").1 = false ↔
      ∃ k, k < spawnCount (run_script envMissing "a-3.py").2 ∧
        envMissing.procExit k ≠ 0) := by
  intro h
  obtain ⟨k, hk, _⟩ := h.mp (by decide)
  rw [show spawnCount (run_script envMissing "a-3.py").2 = 0 from by decide] at hk
  omega
